import Mathlib

/-! Shallow embedding of the `jif` GIF decoder (Rust) for checking its
natural-language specification.

Modelled source files:
* `src/reader_new/bit_reader.rs` — `BitReader`
* `src/parser/lzw.rs`            — `lzw_decode`, `init_code_table`
* `src/parser/decoder.rs`        — typed byte reads, data-sub-block reader,
                                   the block-parser state machine, `parse`
* `src/parser.rs`                — `DisposalMethod::from_u8`

Conventions of the embedding:
* Bytes are `Nat`s (the input stream is a `List Nat`); machine-integer
  truncation is written explicitly (`% 256`, `% 65536`) exactly where the
  Rust code has a narrowing cast.
* The generic `Read` source is instantiated with an in-memory byte list
  (the slice/`Cursor` behaviour used by the repository's callers):
  `read` fills at most the remaining bytes and never fails, `read_exact`
  fails with an end-of-input error when fewer bytes remain than requested.
* A Rust panic (a failed `unwrap`/`expect`, a failed `assert!`/
  `debug_assert!` under the default dev profile, an overflowing `<<` on a
  sized integer) is modelled as `none` / `Except.error .panic`.
* Loops are modelled with explicit fuel where needed; the fuel supplied by
  the top-level entry points is an upper bound on the number of iterations
  (every iteration consumes at least one bit / byte), so a fuel-exhaustion
  result is unreachable from the entry points and is kept only to make the
  definitions total.
-/

/-- Error kinds of the decoder: the variants of `ParserError` in
`src/parser/decoder.rs`, plus the non-`ParserError` failures that the
`anyhow::Result` plumbing can carry (`UnexpectedEof` from `read_exact`,
UTF-8 validation failure from `String::from_utf8`), plus `panic` for a
Rust panic and `fuelExhausted` as the unreachable model artifact. -/
inductive Err where
  | unexpectedEof
  | invalidUtf8
  | invalidSignature
  | unsupportedVersion (v : List Nat)
  | invalidExtensionLabel (b : Nat)
  | expectedImageDescriptor
  | unexpectedLabel (b : Nat)
  | unexpectedApplicationDescriptorDataLength (actual : Nat)
  | panic
  | fuelExhausted
  deriving Repr, DecidableEq

/-- Model of `Read::read_exact` on a list-backed source: fails with `UnexpectedEof`
when fewer than `n` bytes remain, otherwise consumes and returns exactly
`n` bytes. -/
def readExact (n : Nat) (src : List Nat) : Except Err (List Nat × List Nat) :=
  if src.length < n then .error .unexpectedEof
  else .ok (src.take n, src.drop n)

/-- Model of `Read::read` into a zero-initialised buffer of length `n` on a
list-backed source: never fails, fills `min n src.length` bytes and leaves
the rest of the buffer zero. Returns the whole buffer (length `n`) and the
remaining stream. -/
def readFill (n : Nat) (src : List Nat) : List Nat × List Nat :=
  (src.take n ++ List.replicate (n - src.length) 0, src.drop n)

/-- Embeds `Decoder::read_bytes` (decoder.rs:463): `read_exact` into a buffer of
length `count`. -/
def readBytes (n : Nat) (src : List Nat) : Except Err (List Nat × List Nat) :=
  readExact n src

/-- Embeds `Decoder::read_byte` (decoder.rs:469): `read_exact` of a single byte. -/
def readByte (src : List Nat) : Except Err (Nat × List Nat) :=
  match src with
  | [] => .error .unexpectedEof
  | b :: rest => .ok (b, rest)

/-- Embeds `Decoder::read_u16` (decoder.rs:475): `read_exact` of two bytes,
little-endian. -/
def readU16 (src : List Nat) : Except Err (Nat × List Nat) :=
  match src with
  | b0 :: b1 :: rest => .ok (b0 + 256 * b1, rest)
  | _ => .error .unexpectedEof

/-- UTF-8 validity of a byte sequence, as checked by
`String::from_utf8`. -/
def utf8Valid : List Nat → Bool
  | [] => true
  | b :: rest =>
    if b ≤ 0x7F then utf8Valid rest
    else if b < 0xC2 then false
    else if b ≤ 0xDF then
      match rest with
      | c :: r => decide (0x80 ≤ c ∧ c ≤ 0xBF) && utf8Valid r
      | [] => false
    else if b ≤ 0xEF then
      match rest with
      | c1 :: c2 :: r =>
        (if b = 0xE0 then decide (0xA0 ≤ c1 ∧ c1 ≤ 0xBF)
         else if b = 0xED then decide (0x80 ≤ c1 ∧ c1 ≤ 0x9F)
         else decide (0x80 ≤ c1 ∧ c1 ≤ 0xBF))
          && decide (0x80 ≤ c2 ∧ c2 ≤ 0xBF) && utf8Valid r
      | _ => false
    else if b ≤ 0xF4 then
      match rest with
      | c1 :: c2 :: c3 :: r =>
        (if b = 0xF0 then decide (0x90 ≤ c1 ∧ c1 ≤ 0xBF)
         else if b = 0xF4 then decide (0x80 ≤ c1 ∧ c1 ≤ 0x8F)
         else decide (0x80 ≤ c1 ∧ c1 ≤ 0xBF))
          && decide (0x80 ≤ c2 ∧ c2 ≤ 0xBF) && decide (0x80 ≤ c3 ∧ c3 ≤ 0xBF)
          && utf8Valid r
      | _ => false
    else false

/-- Embeds `Decoder::read_str` (decoder.rs:484): note the source uses plain
`read` (not `read_exact`) into a zero-initialised buffer, then validates
the whole buffer as UTF-8. A short stream therefore yields a
zero-padded result rather than an end-of-input error. -/
def readStr (n : Nat) (src : List Nat) : Except Err (List Nat × List Nat) :=
  if utf8Valid (readFill n src).1 then .ok ((readFill n src).1, (readFill n src).2)
  else .error .invalidUtf8

/-- Loop body of `Decoder::read_data_sub_blocks` (decoder.rs:490), with
explicit fuel: while the current length byte is non-zero, `read`
(zero-padding, never failing) that many bytes, append them, and read the
next length byte (`read_byte`, which can fail with `UnexpectedEof`; it is
inlined here as the match on `src.drop blockSize`). Every iteration that
recurses consumes at least two bytes of the stream, so the
`src.length + 1` fuel supplied by `readDataSubBlocks` never runs out. -/
def subBlocksAux : Nat → Nat → List Nat → List Nat → Except Err (List Nat × List Nat)
  | 0, _, _, _ => .error .fuelExhausted
  | fuel + 1, blockSize, acc, src =>
    if blockSize = 0 then .ok (acc, src)
    else
      let buf := src.take blockSize ++ List.replicate (blockSize - src.length) 0
      match src.drop blockSize with
      | [] => .error .unexpectedEof
      | b :: rest => subBlocksAux fuel b (acc ++ buf) rest

/-- Embeds `Decoder::read_data_sub_blocks` (decoder.rs:490). -/
def readDataSubBlocks (src : List Nat) : Except Err (List Nat × List Nat) :=
  match readByte src with
  | .error e => .error e
  | .ok (blockSize, src1) => subBlocksAux (src1.length + 1) blockSize [] src1

/-- Embeds `BitReader` (bit_reader.rs): a byte buffer indexed by bit. -/
structure BitReader where
  buf : List Nat
  position : Nat
  length : Nat
  deriving Repr, DecidableEq

/-- Embeds `BitReader::new` (bit_reader.rs:9). -/
def BitReader.new (buf : List Nat) : BitReader :=
  { buf := buf, position := 0, length := buf.length * 8 }

/-- Bit `i` (LSB-first within each byte) of a byte buffer, as read by the
loop body of `BitReader::next`: `(buf[i / 8] >> (i % 8)) & 1`. -/
def bitAt (buf : List Nat) (i : Nat) : Nat :=
  (buf.getD (i / 8) 0 >>> (i % 8)) &&& 1

/-- Embeds `BitReader::next` (bit_reader.rs:17): returns `none` (with the reader
unchanged) when fewer than `count` bits remain, otherwise assembles the
next `count` bits LSB-first and advances the position. The Rust `&mut
self` method is modelled by returning the updated reader alongside the
optional value. -/
def BitReader.next (r : BitReader) (count : Nat) : Option Nat × BitReader :=
  let endPosition := r.position + count
  if r.length < endPosition then (none, r)
  else
    (some ((List.range count).foldl
      (fun v j => v ||| (bitAt r.buf (r.position + j) <<< j)) 0),
     { r with position := endPosition })

/-- Embeds `init_code_table` (lzw.rs:94): entries `0 ..= (1 << mcs) + 1`, each a
single byte `i as u8`. -/
def init_code_table (mcs : Nat) : List (List Nat) :=
  (List.range (2 ^ mcs + 1 + 1)).map fun i => [i % 256]

/-- The `while let Some(code) = reader.next(code_size)` loop of
`lzw_decode` (lzw.rs:25–87), with explicit fuel. Every failed `unwrap`
is `none`. The state at the loop head is the current code table, code
size, previous code, bit reader, and accumulated output indices. -/
def lzwLoop (mcs clearCode eoiCode : Nat) :
    Nat → List (List Nat) → Nat → Nat → BitReader → List Nat → Option (List Nat)
  | 0, _, _, _, _, _ => none
  | fuel + 1, table, codeSize, lastCode, reader, acc =>
    match BitReader.next reader codeSize with
    | (none, _) => some acc
    | (some code, r1) =>
      -- lzw.rs:26 — growth check before dispatching on the code
      let codeSize :=
        if table.length = 2 ^ codeSize - 1 ∧ codeSize < 12 then codeSize + 1
        else codeSize
      if code = clearCode then
        -- lzw.rs:30 — dictionary reset, then an immediate extra read
        let codeSize := mcs + 1
        let table := init_code_table mcs
        match BitReader.next r1 codeSize with
        | (none, _) => none
        | (some lc, r2) =>
          match table[lc]? with
          | none => none
          | some e => lzwLoop mcs clearCode eoiCode fuel table codeSize lc r2 (acc ++ e)
      else if code = eoiCode then some acc
      else
        match table[code]? with
        | some e =>
          -- lzw.rs:45 — code already in the table
          match table[lastCode]?, e.head? with
          | some prev, some k =>
            lzwLoop mcs clearCode eoiCode fuel (table ++ [prev ++ [k]]) codeSize code r1
              (acc ++ e)
          | _, _ => none
        | none =>
          -- lzw.rs:66 — KwKwK case
          match table[lastCode]? with
          | none => none
          | some prev =>
            match prev.head? with
            | none => none
            | some k =>
              lzwLoop mcs clearCode eoiCode fuel (table ++ [prev ++ [k]]) codeSize code r1
                (acc ++ (prev ++ [k]))

/-- Embeds `lzw_decode` (lzw.rs:3). `minimum_code_size ≥ 16` makes the Rust
`1u16 << minimum_code_size` panic (dev profile), modelled as `none`.
The first code read is discarded unconditionally (`reader.next(..).unwrap()`
on line 15); the second becomes `last_code` and its expansion is the
initial output. Fuel `8 * buf.length + 1` bounds the loop: every
iteration consumes at least one bit. -/
def lzw_decode (buf : List Nat) (mcs : Nat) : Option (List Nat) :=
  if 16 ≤ mcs then none
  else
    let table := init_code_table mcs
    let clearCode := 2 ^ mcs
    let eoiCode := clearCode + 1
    let codeSize := mcs + 1
    match BitReader.next (BitReader.new buf) codeSize with
    | (none, _) => none
    | (some _, r1) =>
      match BitReader.next r1 codeSize with
      | (none, _) => none
      | (some lastCode, r2) =>
        match table[lastCode]? with
        | none => none
        | some e => lzwLoop mcs clearCode eoiCode (8 * buf.length + 1) table codeSize lastCode r2 e

/-- Embeds `Version` (decoder.rs:94). -/
inductive Version where
  | v87a
  | v89a
  deriving Repr, DecidableEq

/-- Embeds `Version::try_from` (decoder.rs:100), on the byte list produced by
`read_str`: `"87a"` and `"89a"` in ASCII. -/
def Version.tryFrom (v : List Nat) : Except Err Version :=
  if v = [0x38, 0x37, 0x61] then .ok .v87a
  else if v = [0x38, 0x39, 0x61] then .ok .v89a
  else .error (.unsupportedVersion v)

/-- Embeds `LoopCount` (decoder.rs:112). -/
inductive LoopCount where
  | infinite
  | number (n : Nat)
  deriving Repr, DecidableEq

/-- Embeds `GraphicControlExtension` (decoder.rs:49). -/
structure GraphicControlExtension where
  disposal_method : Nat
  user_input_flag : Bool
  transparent_color_flag : Bool
  delay_time : Nat
  transparent_color_index : Nat
  deriving Repr, DecidableEq

/-- Embeds `TableBasedImage` (decoder.rs:59). -/
structure TableBasedImage where
  left_position : Nat
  top_position : Nat
  width : Nat
  height : Nat
  local_color_table_flag : Bool
  interlace_flag : Bool
  sort_flag : Bool
  local_color_table_size : Option Nat
  local_color_table : Option (List Nat)
  image_indexes : Option (List Nat)
  deriving Repr, DecidableEq

/-- Embeds `GraphicBlock` (decoder.rs:78). -/
structure GraphicBlock where
  extension : Option GraphicControlExtension
  render_block : TableBasedImage
  deriving Repr, DecidableEq

/-- Embeds `SpecialPurposeExtension` (decoder.rs:84). -/
inductive SpecialPurposeExtension where
  | applicationBlock (application_identifier application_authentication_code application_data : List Nat)
  | commentBlock (data : List Nat)
  deriving Repr, DecidableEq

/-- Embeds `LogicalScreenDescriptor` (decoder.rs:118). -/
structure LogicalScreenDescriptor where
  screen_width : Nat
  screen_height : Nat
  global_color_table_flag : Bool
  color_resolution : Nat
  sort_flag : Bool
  global_color_table_size : Option Nat
  background_color_index : Nat
  pixel_aspect_byte : Nat
  deriving Repr, DecidableEq

/-- Embeds `ExtensionType` (decoder.rs:23). -/
inductive ExtensionType where
  | application
  | comment
  | graphicControl
  | plainText
  deriving Repr, DecidableEq

/-- Embeds `ExtensionType::try_from` (decoder.rs:31): labels `0xff`, `0xfe`,
`0xf9`, `0x01`. -/
def ExtensionType.tryFrom (b : Nat) : Except Err ExtensionType :=
  if b = 0xff then .ok .application
  else if b = 0xfe then .ok .comment
  else if b = 0xf9 then .ok .graphicControl
  else if b = 0x01 then .ok .plainText
  else .error (.invalidExtensionLabel b)

/-- Embeds `ParserState` (decoder.rs:130). -/
inductive ParserState where
  | processMagic
  | processLogicalScreenDescriptor
  | processGlobalColorTable
  | processTrailer
  | determineNextBlock (g : Option GraphicControlExtension)
  | processExtension (label : Nat)
  | processImageDescriptor (g : Option GraphicControlExtension)
  | processLocalColorTable (gb : GraphicBlock)
  | processImageData (gb : GraphicBlock)
  | done
  deriving Repr, DecidableEq

/-- The mutable fields of `Decoder` (decoder.rs:171), minus the borrowed
byte source, which the embedding threads explicitly. -/
structure DecoderS where
  version : Option Version
  logical_screen_descriptor : Option LogicalScreenDescriptor
  global_color_table : Option (List Nat)
  special_purpose_extensions : List SpecialPurposeExtension
  graphic_blocks : List GraphicBlock
  loop_count : Option LoopCount
  deriving Repr, DecidableEq

/-- Embeds `Decoder::new` (decoder.rs:183). -/
def DecoderS.init : DecoderS :=
  { version := none, logical_screen_descriptor := none, global_color_table := none,
    special_purpose_extensions := [], graphic_blocks := [], loop_count := none }

/-- The identifier `"NETSCAPE"` in ASCII. -/
def netscapeId : List Nat := [0x4e, 0x45, 0x54, 0x53, 0x43, 0x41, 0x50, 0x45]

/-- Embeds `Decoder::process_extension` (decoder.rs:358). `debug_assert_eq!` and
`assert_eq!` failures are modelled as `.panic` (dev profile). -/
def processExtension (label : ExtensionType) (d : DecoderS) (src : List Nat) :
    Except Err (ParserState × DecoderS × List Nat) :=
  match label with
  | .application =>
    match readByte src with
    | .error e => .error e
    | .ok (blockSize, s1) =>
      if blockSize ≠ 11 then .error .panic   -- debug_assert_eq!(block_size, 11)
      else
        match readStr 8 s1 with
        | .error e => .error e
        | .ok (ident, s2) =>
          match readBytes 3 s2 with
          | .error e => .error e
          | .ok (auth, s3) =>
            match readDataSubBlocks s3 with
            | .error e => .error e
            | .ok (data, s4) =>
              let step : Except Err (Option LoopCount) :=
                if ident = netscapeId ∧ auth = [0x32, 0x2e, 0x30] then
                  if data.length ≠ 3 then
                    .error (.unexpectedApplicationDescriptorDataLength data.length)
                  else if data.getD 0 0 ≠ 1 then .error .panic  -- debug_assert_eq!(1, application_data[0])
                  else
                    let loopNumber := data.getD 1 0 + 256 * data.getD 2 0
                    .ok (some (if loopNumber = 0 then .infinite else .number loopNumber))
                else .ok d.loop_count
              match step with
              | .error e => .error e
              | .ok lc =>
                .ok (.determineNextBlock none,
                  { d with
                    loop_count := lc,
                    special_purpose_extensions := d.special_purpose_extensions ++
                      [.applicationBlock ident auth data] }, s4)
  | .comment =>
    match readDataSubBlocks src with
    | .error e => .error e
    | .ok (data, s1) =>
      .ok (.determineNextBlock none,
        { d with special_purpose_extensions := d.special_purpose_extensions ++
            [.commentBlock data] }, s1)
  | .graphicControl =>
    match readByte src with
    | .error e => .error e
    | .ok (blockSize, s1) =>
      if blockSize ≠ 4 then .error .panic   -- debug_assert_eq!(block_size, 4)
      else
        match readByte s1 with
        | .error e => .error e
        | .ok (packed, s2) =>
          match readU16 s2 with
          | .error e => .error e
          | .ok (delay, s3) =>
            match readByte s3 with
            | .error e => .error e
            | .ok (tci, s4) =>
              match readByte s4 with
              | .error e => .error e
              | .ok (term, s5) =>
                if term ≠ 0 then .error .panic   -- assert_eq!(block_terminator, 0)
                else
                  .ok (.determineNextBlock (some
                    { disposal_method := (packed >>> 2) &&& 7,
                      user_input_flag := packed &&& 2 ≠ 0,
                      transparent_color_flag := packed &&& 1 ≠ 0,
                      delay_time := delay,
                      transparent_color_index := tci }), d, s5)
  | .plainText =>
    match readByte src with
    | .error e => .error e
    | .ok (blockSize, s1) =>
      if blockSize ≠ 12 then .error .panic   -- debug_assert_eq!(block_size, 12)
      else
        match readBytes 12 s1 with
        | .error e => .error e
        | .ok (_, s2) =>
          match readDataSubBlocks s2 with
          | .error e => .error e
          | .ok (_, s3) => .ok (.determineNextBlock none, d, s3)

/-- Embeds `Decoder::process_next_state` (decoder.rs:208). -/
def processNextState (st : ParserState) (d : DecoderS) (src : List Nat) :
    Except Err (ParserState × DecoderS × List Nat) :=
  match st with
  | .processMagic =>
    match readStr 3 src with
    | .error e => .error e
    | .ok (signature, s1) =>
      if signature ≠ [0x47, 0x49, 0x46] then .error .invalidSignature
      else
        match readStr 3 s1 with
        | .error e => .error e
        | .ok (v, s2) =>
          match Version.tryFrom v with
          | .error e => .error e
          | .ok ver =>
            .ok (.processLogicalScreenDescriptor, { d with version := some ver }, s2)
  | .processLogicalScreenDescriptor =>
    match readU16 src with
    | .error e => .error e
    | .ok (screenWidth, s1) =>
      match readU16 s1 with
      | .error e => .error e
      | .ok (screenHeight, s2) =>
        match readByte s2 with
        | .error e => .error e
        | .ok (packed, s3) =>
          let globalColorTableFlag := packed &&& 0x80 ≠ 0
          let colorResolution := (packed >>> 4) &&& 0x07
          let sortFlag := packed &&& 0x08 ≠ 0
          let globalColorTableSize :=
            if globalColorTableFlag then some (3 * 2 ^ ((packed &&& 0x07) + 1)) else none
          match readByte s3 with
          | .error e => .error e
          | .ok (backgroundColorIndex, s4) =>
            match readByte s4 with
            | .error e => .error e
            | .ok (aspect, s5) =>
              let d' := { d with logical_screen_descriptor := some (
                { screen_width := screenWidth, screen_height := screenHeight,
                  global_color_table_flag := globalColorTableFlag,
                  color_resolution := colorResolution, sort_flag := sortFlag,
                  global_color_table_size := globalColorTableSize,
                  background_color_index := backgroundColorIndex,
                  pixel_aspect_byte := aspect } : LogicalScreenDescriptor) }
              .ok (if globalColorTableFlag then .processGlobalColorTable
                   else .determineNextBlock none, d', s5)
  | .processGlobalColorTable =>
    match d.logical_screen_descriptor with
    | none => .error .panic   -- .expect("logical screen descriptor should not be none")
    | some lsd =>
      match lsd.global_color_table_size with
      | none => .error .panic   -- .expect("global color table size should not be none")
      | some size =>
        match readBytes size src with
        | .error e => .error e
        | .ok (table, s1) =>
          .ok (.determineNextBlock none, { d with global_color_table := some table }, s1)
  | .processTrailer => .ok (.done, d, src)
  | .determineNextBlock g =>
    match readByte src with
    | .error e => .error e
    | .ok (b, s1) =>
      if b = 0x21 then
        match readByte s1 with
        | .error e => .error e
        | .ok (label, s2) => .ok (.processExtension label, d, s2)
      else if b = 0x2c then .ok (.processImageDescriptor g, d, s1)
      else if b = 0x3b then .ok (.processTrailer, d, s1)
      else .error (.unexpectedLabel b)
  | .processExtension label =>
    match ExtensionType.tryFrom label with
    | .error e => .error e
    | .ok ty => processExtension ty d src
  | .processImageDescriptor g =>
    match readU16 src with
    | .error e => .error e
    | .ok (leftPosition, s1) =>
      match readU16 s1 with
      | .error e => .error e
      | .ok (topPosition, s2) =>
        match readU16 s2 with
        | .error e => .error e
        | .ok (width, s3) =>
          match readU16 s3 with
          | .error e => .error e
          | .ok (height, s4) =>
            match readByte s4 with
            | .error e => .error e
            | .ok (packed, s5) =>
              let localColorTableFlag := packed &&& 0x80 ≠ 0
              let interlaceFlag := packed &&& 0x40 ≠ 0
              let sortFlag := packed &&& 0x20 ≠ 0
              let localColorTableSize :=
                if localColorTableFlag then some (3 * 2 ^ ((packed &&& 0x07) + 1)) else none
              let gb : GraphicBlock :=
                { extension := g,
                  render_block :=
                    { left_position := leftPosition, top_position := topPosition,
                      width := width, height := height,
                      local_color_table_flag := localColorTableFlag,
                      interlace_flag := interlaceFlag, sort_flag := sortFlag,
                      local_color_table_size := localColorTableSize,
                      local_color_table := none, image_indexes := none } }
              .ok (if localColorTableFlag then .processLocalColorTable gb
                   else .processImageData gb, d, s5)
  | .processLocalColorTable gb =>
    match gb.render_block.local_color_table_size with
    | none => .error .panic   -- .expect("global color table size should not be none")
    | some size =>
      match readBytes size src with
      | .error e => .error e
      | .ok (table, s1) =>
        .ok (.processImageData
          { gb with render_block := { gb.render_block with local_color_table := some table } },
          d, s1)
  | .processImageData gb =>
    match readByte src with
    | .error e => .error e
    | .ok (lzwCodeSize, s1) =>
      match readDataSubBlocks s1 with
      | .error e => .error e
      | .ok (dataStream, s2) =>
        match lzw_decode dataStream lzwCodeSize with
        | none => .error .panic   -- lzw_decode panics on a failed unwrap
        | some indicies =>
          .ok (.determineNextBlock none,
            { d with graphic_blocks := d.graphic_blocks ++
                [{ gb with render_block :=
                    { gb.render_block with image_indexes := some indicies } }] }, s2)
  | .done => .error .panic   -- unimplemented!()

/-- The `loop` of `Decoder::parse` (decoder.rs:195), with fuel. Every
successfully processed state other than `processTrailer` consumes at
least one input byte, so `input.length + 2` fuel (supplied by
`parseBytes`) never runs out. -/
def parseLoop : Nat → ParserState → DecoderS → List Nat → Except Err DecoderS
  | 0, _, _, _ => .error .fuelExhausted
  | fuel + 1, st, d, src =>
    match processNextState st d src with
    | .error e => .error e
    | .ok (st', d', src') =>
      match st' with
      | .done => .ok d'
      | _ => parseLoop fuel st' d' src'

/-- Embeds `Decoder::parse` (decoder.rs:195) on an in-memory byte stream. -/
def parseBytes (input : List Nat) : Except Err DecoderS :=
  parseLoop (input.length + 2) .processMagic DecoderS.init input

/-- Embeds `DisposalMethod` (parser.rs:9). -/
inductive DisposalMethod where
  | doNotDispose
  | restoreToBackgroundColor
  | restoreToPrevious
  deriving Repr, DecidableEq

/-- Embeds `DisposalMethod::from_u8` (parser.rs:16): only 1, 2, 3 map to a
variant; 0 and everything above 3 give `none`. -/
def DisposalMethod.from_u8 (value : Nat) : Option DisposalMethod :=
  if value = 1 then some .doNotDispose
  else if value = 2 then some .restoreToBackgroundColor
  else if value = 3 then some .restoreToPrevious
  else none

/-- Modelled from the spec's words (for the refinement claim C1): the same
LZW loop, but with the width growth performed "immediately after adding
the entry with index `(1 << current_width) - 1`", i.e. right after a
dictionary push when the next-assigned index (the new table length)
equals `1 << current_width`, capped at 12 — instead of the source's check
at the top of the loop before dispatching on the code just read. All
other behaviour is copied from `lzwLoop`. -/
def lzwLoopClaim (mcs clearCode eoiCode : Nat) :
    Nat → List (List Nat) → Nat → Nat → BitReader → List Nat → Option (List Nat)
  | 0, _, _, _, _, _ => none
  | fuel + 1, table, codeSize, lastCode, reader, acc =>
    match BitReader.next reader codeSize with
    | (none, _) => some acc
    | (some code, r1) =>
      if code = clearCode then
        let codeSize := mcs + 1
        let table := init_code_table mcs
        match BitReader.next r1 codeSize with
        | (none, _) => none
        | (some lc, r2) =>
          match table[lc]? with
          | none => none
          | some e => lzwLoopClaim mcs clearCode eoiCode fuel table codeSize lc r2 (acc ++ e)
      else if code = eoiCode then some acc
      else
        match table[code]? with
        | some e =>
          match table[lastCode]?, e.head? with
          | some prev, some k =>
            let table' := table ++ [prev ++ [k]]
            let codeSize' :=
              if table'.length = 2 ^ codeSize ∧ codeSize < 12 then codeSize + 1 else codeSize
            lzwLoopClaim mcs clearCode eoiCode fuel table' codeSize' code r1 (acc ++ e)
          | _, _ => none
        | none =>
          match table[lastCode]? with
          | none => none
          | some prev =>
            match prev.head? with
            | none => none
            | some k =>
              let table' := table ++ [prev ++ [k]]
              let codeSize' :=
                if table'.length = 2 ^ codeSize ∧ codeSize < 12 then codeSize + 1 else codeSize
              lzwLoopClaim mcs clearCode eoiCode fuel table' codeSize' code r1
                (acc ++ (prev ++ [k]))

/-- Modelled from the spec's words (for the refinement claim C1):
`lzw_decode` with the claim's width-growth timing. -/
def lzw_decode_claim (buf : List Nat) (mcs : Nat) : Option (List Nat) :=
  if 16 ≤ mcs then none
  else
    let table := init_code_table mcs
    let clearCode := 2 ^ mcs
    let eoiCode := clearCode + 1
    let codeSize := mcs + 1
    match BitReader.next (BitReader.new buf) codeSize with
    | (none, _) => none
    | (some _, r1) =>
      match BitReader.next r1 codeSize with
      | (none, _) => none
      | (some lastCode, r2) =>
        match table[lastCode]? with
        | none => none
        | some e =>
          lzwLoopClaim mcs clearCode eoiCode (8 * buf.length + 1) table codeSize lastCode r2 e

/-- The two growth timings assign the same width: the source's check at
the top of an iteration fires on table length `(1 << w) - 1` (measured
before that iteration's push), the claim's check fires right after a push
on table length `1 << w` — one and the same event, first affecting the
next read. -/
theorem lzwLoopClaim_eq_lzwLoop (mcs clearCode eoiCode : Nat) :
    ∀ fuel table codeSize lastCode reader acc,
      lzwLoopClaim mcs clearCode eoiCode fuel table codeSize lastCode reader acc =
        lzwLoop mcs clearCode eoiCode fuel table codeSize lastCode reader acc := by
  intro fuel
  induction fuel with
  | zero =>
    intro table codeSize lastCode reader acc
    rfl
  | succ n ih =>
    intro table codeSize lastCode reader acc
    have hgrow : ∀ t : List (List Nat), ∀ x : List Nat,
        (if (t ++ [x]).length = 2 ^ codeSize ∧ codeSize < 12 then codeSize + 1 else codeSize) =
          (if t.length = 2 ^ codeSize - 1 ∧ codeSize < 12 then codeSize + 1 else codeSize) := by
      intro t x
      have h1 : 1 ≤ 2 ^ codeSize := Nat.one_le_two_pow
      have : ((t ++ [x]).length = 2 ^ codeSize ∧ codeSize < 12) ↔
          (t.length = 2 ^ codeSize - 1 ∧ codeSize < 12) := by
        simp only [List.length_append, List.length_singleton]
        omega
      rw [if_congr this rfl rfl]
    rw [lzwLoopClaim, lzwLoop]
    rcases hbr : BitReader.next reader codeSize with ⟨o, r1⟩
    cases o with
    | none => rfl
    | some code =>
      by_cases hclear : code = clearCode
      · simp only [if_pos hclear]
        rcases hbr2 : BitReader.next r1 (mcs + 1) with ⟨o2, r2⟩
        cases o2 with
        | none => rfl
        | some lc =>
          cases hg : (init_code_table mcs)[lc]? with
          | none => simp [hg]
          | some e => simp only [hg, ih]
      · by_cases heoi : code = eoiCode
        · simp only [if_neg hclear, if_pos heoi]
        · simp only [if_neg hclear, if_neg heoi]
          cases hc : table[code]? with
          | some e =>
            cases hl : table[lastCode]? with
            | none => simp [hc, hl]
            | some prev =>
              cases he : e.head? with
              | none => simp [hc, hl, he]
              | some k => simp only [hc, hl, he, ih, hgrow]
          | none =>
            cases hl : table[lastCode]? with
            | none => simp [hc, hl]
            | some prev =>
              cases he : prev.head? with
              | none => simp [hc, hl, he]
              | some k => simp only [hc, hl, he, ih, hgrow]

/-- C1 (confirmed): during LZW decoding the code width is incremented,
capped at 12, exactly when the dictionary's next-assigned index equals
`1 << current_width` — i.e. immediately after adding the entry with index
`(1 << current_width) - 1` — and every code of every compressed stream is
read at the width this rule produces: running the decoder with the
claim's growth rule (`lzw_decode_claim`) gives the same result as the
source's `lzw_decode` on every input. The source's top-of-loop comparison
`code_table.len() == (1 << code_size) - 1` is this very rule evaluated
one dictionary push earlier, before the pending push, so it is not
off by one. -/
theorem lzw_width_growth_matches_claim_rule (buf : List Nat) (mcs : Nat) :
    lzw_decode_claim buf mcs = lzw_decode buf mcs := by
  unfold lzw_decode_claim lzw_decode
  simp only [lzwLoopClaim_eq_lzwLoop]

/-- C8 (confirmed): for every byte buffer, bit position and width, if
fewer than `count` bits remain past the current position then
`BitReader::next` returns `none` and returns the reader unchanged, so
subsequent reads behave as if the failed call never happened. -/
theorem bit_reader_next_exhausted_unchanged (r : BitReader) (count : Nat)
    (h : r.length < r.position + count) :
    BitReader.next r count = (none, r) := by
  simp [BitReader.next, h]

/-- Witness for `bit_reader_next_exhausted_unchanged`: a one-byte buffer
holds 8 bits, so requesting 9 fails and leaves the reader untouched. -/
theorem bit_reader_next_exhausted_unchanged_witness :
    BitReader.next (BitReader.new [5]) 9 = (none, BitReader.new [5]) :=
  bit_reader_next_exhausted_unchanged (BitReader.new [5]) 9 (by decide)

/-- Counterexample to C3 as stated: the buffer `[0x0C]` encodes, at
minimum code size 2 (code width 3), the codes `4` (the clear code,
discarded as the unconditional first read) and `1`, and then runs out of
bits — no end-of-information code (5) is ever read. The claim demands a
`BitStreamTruncated` failure, but `lzw_decode` returns the partially
decoded index sequence `[1]` as a success; the source has no
`BitStreamTruncated` (or any other) error path, its `while let` loop
simply stops at exhaustion (lzw.rs:25). -/
theorem lzw_truncated_stream_succeeds_cex : lzw_decode [0x0C] 2 = some [1] := by
  rfl

/-- C3 (amended): when the bit stream is exhausted before an
end-of-information code has been read (and after the two initial code
reads succeeded), the decode loop returns the indices accumulated so far
as a success — exhaustion is not an error. -/
theorem lzw_exhaustion_returns_partial (mcs clearCode eoiCode fuel : Nat)
    (table : List (List Nat)) (codeSize lastCode : Nat) (reader : BitReader)
    (acc : List Nat) (h : reader.length < reader.position + codeSize) :
    lzwLoop mcs clearCode eoiCode (fuel + 1) table codeSize lastCode reader acc =
      some acc := by
  rw [lzwLoop]
  simp [BitReader.next, h]

/-- Witness for `lzw_exhaustion_returns_partial`: the loop state reached
by `lzw_decode [0x0C] 2` after its initial reads (position 6 of 8 bits,
width 3) returns the accumulated `[1]`. -/
theorem lzw_exhaustion_returns_partial_witness :
    lzwLoop 2 4 5 9 (init_code_table 2) 3 1 { buf := [0x0C], position := 6, length := 8 } [1] =
      some [1] :=
  lzw_exhaustion_returns_partial 2 4 5 8 (init_code_table 2) 3 1
    { buf := [0x0C], position := 6, length := 8 } [1] (by decide)

/-- The LZW loop only ever appends to the accumulated output. -/
theorem lzwLoop_extends_acc (mcs clearCode eoiCode : Nat) :
    ∀ fuel table codeSize lastCode reader acc out,
      lzwLoop mcs clearCode eoiCode fuel table codeSize lastCode reader acc = some out →
      ∃ rest, out = acc ++ rest := by
  intro fuel
  induction fuel with
  | zero =>
    intro table codeSize lastCode reader acc out h
    exact absurd h (by simp [lzwLoop])
  | succ n ih =>
    intro table codeSize lastCode reader acc out h
    rw [lzwLoop] at h
    rcases hbr : BitReader.next reader codeSize with ⟨o, r1⟩
    rw [hbr] at h
    cases o with
    | none =>
      refine ⟨[], ?_⟩
      simp only at h
      injection h with h'
      simp [h']
    | some code =>
      simp only at h
      by_cases hclear : code = clearCode
      · rw [if_pos hclear] at h
        rcases hbr2 : BitReader.next r1 (mcs + 1) with ⟨o2, r2⟩
        rw [hbr2] at h
        cases o2 with
        | none => exact absurd h (by simp)
        | some lc =>
          simp only at h
          cases hg : (init_code_table mcs)[lc]? with
          | none => rw [hg] at h; exact absurd h (by simp)
          | some e =>
            rw [hg] at h
            obtain ⟨r, hr⟩ := ih _ _ _ _ _ _ h
            exact ⟨e ++ r, by simp [hr]⟩
      · rw [if_neg hclear] at h
        by_cases heoi : code = eoiCode
        · rw [if_pos heoi] at h
          refine ⟨[], ?_⟩
          injection h with h'
          simp [h']
        · rw [if_neg heoi] at h
          cases hc : table[code]? with
          | some e =>
            rw [hc] at h
            simp only at h
            cases hl : table[lastCode]? with
            | none => rw [hl] at h; exact absurd h (by simp)
            | some prev =>
              rw [hl] at h
              cases he : e.head? with
              | none => rw [he] at h; exact absurd h (by simp)
              | some k =>
                rw [he] at h
                simp only at h
                obtain ⟨r, hr⟩ := ih _ _ _ _ _ _ h
                exact ⟨e ++ r, by simp [hr]⟩
          | none =>
            rw [hc] at h
            simp only at h
            cases hl : table[lastCode]? with
            | none => rw [hl] at h; exact absurd h (by simp)
            | some prev =>
              rw [hl] at h
              simp only at h
              cases he : prev.head? with
              | none => rw [he] at h; exact absurd h (by simp)
              | some k =>
                rw [he] at h
                simp only at h
                obtain ⟨r, hr⟩ := ih _ _ _ _ _ _ h
                exact ⟨prev ++ [k] ++ r, by simp [hr]⟩

/-- Counterexample to C4 as stated: the buffer `[0x51, 0x01]` encodes, at
minimum code size 2 (width 3), the codes `1, 2, 5` — its first code is
the ordinary literal code `1`, not a clear code. The claim's "in
particular" clause demands that this first code's expansion `[1]` be the
first output; instead `lzw_decode` unconditionally discards the first
code (lzw.rs:15) and emits the expansion of the second code: the full
output is `[2]` (code 5 is end-of-information). -/
theorem lzw_first_code_discarded_cex : lzw_decode [0x51, 0x01] 2 = some [2] := by
  rfl

/-- C4 (amended): `lzw_decode` unconditionally discards the first code
read from the stream (it is assumed to be a clear code); the second code
read is the one treated as the initial previous code — its expansion `e`
in the untouched initial dictionary is emitted directly as the first
output indices and no dictionary entry is added for it: the run
continues as the main loop started on the initial table with `e` as the
whole accumulated output, and any successful result extends `e` on the
right. -/
theorem lzw_second_code_is_initial_previous (buf : List Nat) (mcs c1 c2 : Nat)
    (r1 r2 : BitReader) (e : List Nat)
    (hmcs : mcs < 16)
    (h1 : BitReader.next (BitReader.new buf) (mcs + 1) = (some c1, r1))
    (h2 : BitReader.next r1 (mcs + 1) = (some c2, r2))
    (h3 : (init_code_table mcs)[c2]? = some e) :
    lzw_decode buf mcs =
      lzwLoop mcs (2 ^ mcs) (2 ^ mcs + 1) (8 * buf.length + 1) (init_code_table mcs)
        (mcs + 1) c2 r2 e ∧
    ∀ out, lzw_decode buf mcs = some out → ∃ rest, out = e ++ rest := by
  have hd : lzw_decode buf mcs =
      lzwLoop mcs (2 ^ mcs) (2 ^ mcs + 1) (8 * buf.length + 1) (init_code_table mcs)
        (mcs + 1) c2 r2 e := by
    unfold lzw_decode
    rw [if_neg (by omega)]
    simp only [h1, h2, h3]
  refine ⟨hd, fun out hout => ?_⟩
  rw [hd] at hout
  exact lzwLoop_extends_acc mcs (2 ^ mcs) (2 ^ mcs + 1) _ _ _ _ _ _ _ hout

/-- Witness for `lzw_second_code_is_initial_previous` at the stream
`[0x51, 0x01]` with minimum code size 2: the second code is 2, its
expansion `[2]` opens the output. -/
theorem lzw_second_code_is_initial_previous_witness :
    lzw_decode [0x51, 0x01] 2 =
      lzwLoop 2 4 5 17 (init_code_table 2) 3 2
        { buf := [0x51, 0x01], position := 6, length := 16 } [2] ∧
    ∀ out, lzw_decode [0x51, 0x01] 2 = some out → ∃ rest, out = [2] ++ rest :=
  lzw_second_code_is_initial_previous [0x51, 0x01] 2 1 2
    { buf := [0x51, 0x01], position := 3, length := 16 }
    { buf := [0x51, 0x01], position := 6, length := 16 } [2]
    (by decide) (by decide) (by decide) (by decide)

/-- Counterexample to C7 as stated: the n-byte ASCII read used for the
signature/version/application identifier does not fail with
`UnexpectedEof` on a short stream — on an empty stream `read_str(3)`
succeeds with the zero-padded buffer `"\0\0\0"`, because decoder.rs:486
uses `read` (which fills what is available) instead of `read_exact`. -/
theorem read_str_empty_source_succeeds_cex :
    readStr 3 ([] : List Nat) = .ok ([0, 0, 0], []) := by
  rfl

/-- C7 (amended): `read_bytes(n)`, `read_byte` and `read_u16` fail with
`UnexpectedEof` when the stream yields fewer bytes than requested, but
`read_str(n)` never does — its only possible failure is UTF-8
validation, as it zero-pads a short read. -/
theorem exact_reads_fail_eof_read_str_pads (n : Nat) (src : List Nat)
    (h : src.length < n) :
    readBytes n src = .error .unexpectedEof ∧
    (src.length < 1 → readByte src = .error .unexpectedEof) ∧
    (src.length < 2 → readU16 src = .error .unexpectedEof) ∧
    ∀ e, readStr n src = .error e → e = .invalidUtf8 := by
  refine ⟨by simp [readBytes, readExact, h], ?_, ?_, ?_⟩
  · intro h1
    cases src with
    | nil => rfl
    | cons b t => simp at h1
  · intro h2
    cases src with
    | nil => rfl
    | cons b t =>
      cases t with
      | nil => rfl
      | cons b2 t2 => simp only [List.length_cons] at h2; omega
  · intro e he
    unfold readStr at he
    split at he
    · exact absurd he (by simp)
    · injection he with he'
      exact he'.symm

/-- Witness for `exact_reads_fail_eof_read_str_pads` on the empty stream
with `n = 3`. -/
theorem exact_reads_fail_eof_read_str_pads_witness :
    readBytes 3 ([] : List Nat) = .error .unexpectedEof ∧
    (([] : List Nat).length < 1 → readByte [] = .error .unexpectedEof) ∧
    (([] : List Nat).length < 2 → readU16 [] = .error .unexpectedEof) ∧
    ∀ e, readStr 3 ([] : List Nat) = .error e → e = .invalidUtf8 :=
  exact_reads_fail_eof_read_str_pads 3 [] (by decide)

/-- With fuel exceeding the stream length (as supplied by
`read_data_sub_blocks`), any failure of the sub-block loop is
`UnexpectedEof`, and it can only arise from reading a length byte (the
data reads use the non-failing, zero-padding `read`). -/
theorem subBlocksAux_error_eof :
    ∀ fuel bs acc src e, src.length < fuel →
      subBlocksAux fuel bs acc src = .error e → e = .unexpectedEof := by
  intro fuel
  induction fuel with
  | zero =>
    intro bs acc src e hf
    exact absurd hf (by omega)
  | succ n ih =>
    intro bs acc src e hf he
    rw [subBlocksAux] at he
    by_cases hbs : bs = 0
    · rw [if_pos hbs] at he
      exact absurd he (by simp)
    · rw [if_neg hbs] at he
      cases hdrop : src.drop bs with
      | nil =>
        rw [hdrop] at he
        injection he with he'
        exact he'.symm
      | cons b rest =>
        rw [hdrop] at he
        refine ih b _ rest e ?_ he
        have hlen : (src.drop bs).length = rest.length + 1 := by rw [hdrop]; rfl
        have hlen2 : (src.drop bs).length = src.length - bs := by
          simp [List.length_drop]
        omega

/-- Every error of `read_data_sub_blocks` is `UnexpectedEof`, arising at
a length-byte read. -/
theorem readDataSubBlocks_error_eof (src : List Nat) (e : Err)
    (h : readDataSubBlocks src = .error e) : e = .unexpectedEof := by
  unfold readDataSubBlocks at h
  cases src with
  | nil =>
    simp only [readByte] at h
    injection h with h'
    exact h'.symm
  | cons b rest =>
    simp only [readByte] at h
    exact subBlocksAux_error_eof (rest.length + 1) b [] rest e (by omega) h

/-- C9 (confirmed): when the stream yields fewer bytes than a sub-block's
advertised length byte, the sub-block reader does not fail at that data
read: the appended buffer has exactly the advertised length, consisting
of the provided bytes followed by zeros, and the loop then continues by
reading the next length byte — here on the exhausted stream, which is
where the `UnexpectedEof` arises; in general every error of
`read_data_sub_blocks` comes from a length-byte read. -/
theorem sub_block_short_read_zero_pads (fuel blockSize : Nat) (acc src : List Nat)
    (hbs : blockSize ≠ 0) (h : src.length < blockSize) :
    (src.take blockSize ++ List.replicate (blockSize - src.length) 0).length = blockSize ∧
    src.take blockSize ++ List.replicate (blockSize - src.length) 0 =
      src ++ List.replicate (blockSize - src.length) 0 ∧
    subBlocksAux (fuel + 1) blockSize acc src = .error .unexpectedEof ∧
    ∀ s e, readDataSubBlocks s = .error e → e = .unexpectedEof := by
  have hdrop : src.drop blockSize = [] := List.drop_eq_nil_of_le (Nat.le_of_lt h)
  refine ⟨?_, ?_, ?_, fun s e he => readDataSubBlocks_error_eof s e he⟩
  · simp only [List.length_append, List.length_take, List.length_replicate]
    omega
  · rw [List.take_of_length_le (Nat.le_of_lt h)]
  · rw [subBlocksAux, if_neg hbs]
    simp [hdrop]

/-- Witness for `sub_block_short_read_zero_pads`: an advertised length of
5 with only `[1, 2, 3]` remaining yields the 5-byte zero-padded chunk and
an `UnexpectedEof` from the following length-byte read. -/
theorem sub_block_short_read_zero_pads_witness :
    (([1, 2, 3] : List Nat).take 5 ++ List.replicate (5 - ([1, 2, 3] : List Nat).length) 0).length = 5 ∧
    ([1, 2, 3] : List Nat).take 5 ++ List.replicate (5 - ([1, 2, 3] : List Nat).length) 0 =
      [1, 2, 3] ++ List.replicate (5 - ([1, 2, 3] : List Nat).length) 0 ∧
    subBlocksAux 1 5 [] [1, 2, 3] = .error .unexpectedEof ∧
    ∀ s e, readDataSubBlocks s = .error e → e = .unexpectedEof :=
  sub_block_short_read_zero_pads 0 5 [] [1, 2, 3] (by decide) (by decide)

/-- Counterexample to C5 as stated: a graphic control extension whose
packed field is `0x10` (disposal bits 2–4 hold the value 4 > 3) parses
successfully — there is no `InvalidDisposalMethod` failure anywhere in
the parser (no such variant exists in `ParserError`), and the raw value 4
is recorded on the resulting graphic control record. -/
theorem disposal_method_above_three_accepted_cex :
    processExtension .graphicControl DecoderS.init [4, 0x10, 0, 0, 0, 0] =
      .ok (.determineNextBlock (some
        { disposal_method := 4, user_input_flag := false,
          transparent_color_flag := false, delay_time := 0,
          transparent_color_index := 0 }), DecoderS.init, []) := by
  rfl

/-- C5 (amended): the graphic-control parser performs no validation of
the disposal bits: for every packed byte it succeeds (given the correct
block size and terminator) and records the raw three-bit value
`(packed >> 2) & 7` — values 4–7 included — on the record. (The unused
`DisposalMethod::from_u8` in parser.rs would map only 1–3 to a variant,
but the decoder never calls it.) -/
theorem graphic_control_records_raw_disposal (d : DecoderS)
    (packed dl0 dl1 tci : Nat) (rest : List Nat) :
    processExtension .graphicControl d (4 :: packed :: dl0 :: dl1 :: tci :: 0 :: rest) =
      .ok (.determineNextBlock (some
        { disposal_method := (packed >>> 2) &&& 7,
          user_input_flag := packed &&& 2 ≠ 0,
          transparent_color_flag := packed &&& 1 ≠ 0,
          delay_time := dl0 + 256 * dl1,
          transparent_color_index := tci }), d, rest) := by
  simp [processExtension, readByte, readU16]

/-- The read `read_byte` can only fail with `UnexpectedEof`. -/
theorem readByte_error_eof (src : List Nat) (e : Err)
    (h : readByte src = .error e) : e = .unexpectedEof := by
  cases src with
  | nil =>
    injection h with h'
    exact h'.symm
  | cons b rest => exact absurd h (by simp [readByte])

/-- C2 (amended, part of the correction): after processing any extension
block the dispatch state carries either no pending graphic control
record, or — exactly for a graphic control extension — the newly parsed
record; a previously pending record is never preserved across an
extension (the source's `process_extension` does not even receive it). -/
theorem extension_dispatch_carries_no_pending_gc (ty : ExtensionType) (d : DecoderS)
    (src : List Nat) (r : ParserState × DecoderS × List Nat)
    (h : processExtension ty d src = .ok r) :
    ∃ g, r.1 = .determineNextBlock g ∧ (ty ≠ .graphicControl → g = none) := by
  cases ty with
  | application =>
    simp only [processExtension] at h
    repeat' split at h
    all_goals first
      | (injection h; done)
      | (injection h with h'; exact ⟨none, by rw [← h'], fun _ => rfl⟩)
  | comment =>
    simp only [processExtension] at h
    repeat' split at h
    all_goals first
      | (injection h; done)
      | (injection h with h'; exact ⟨none, by rw [← h'], fun _ => rfl⟩)
  | graphicControl =>
    simp only [processExtension] at h
    repeat' split at h
    all_goals first
      | (injection h; done)
      | (injection h with h'; exact ⟨_, by rw [← h'], fun hne => absurd rfl hne⟩)
  | plainText =>
    simp only [processExtension] at h
    repeat' split at h
    all_goals first
      | (injection h; done)
      | (injection h with h'; exact ⟨none, by rw [← h'], fun _ => rfl⟩)

/-- Witness for `extension_dispatch_carries_no_pending_gc`: a comment
extension with an empty sub-block chain. -/
theorem extension_dispatch_carries_no_pending_gc_witness :
    ∃ g, (ParserState.determineNextBlock none,
        { DecoderS.init with
          special_purpose_extensions := [SpecialPurposeExtension.commentBlock []] },
        ([] : List Nat)).1 = ParserState.determineNextBlock g ∧
      (ExtensionType.comment ≠ ExtensionType.graphicControl → g = none) :=
  extension_dispatch_carries_no_pending_gc .comment DecoderS.init [0]
    (.determineNextBlock none,
      { DecoderS.init with
        special_purpose_extensions := [SpecialPurposeExtension.commentBlock []] },
      []) (by rfl)

/-- A stream with a graphic control extension, then a comment extension,
then an image descriptor: header `GIF89a`, 1×1 screen without global
palette, `21 F9 04 00 0A00 00 00` (delay 10), comment `21 FE 01 41 00`,
image descriptor at origin without local palette, LZW data
`02 02 44 01 00` (decodes to `[0]`), trailer `3B`. -/
def c2input : List Nat :=
  [0x47, 0x49, 0x46, 0x38, 0x39, 0x61,
   1, 0, 1, 0, 0, 0, 0,
   0x21, 0xf9, 4, 0, 10, 0, 0, 0,
   0x21, 0xfe, 1, 0x41, 0,
   0x2c, 0, 0, 0, 0, 1, 0, 1, 0, 0,
   2, 2, 0x44, 0x01, 0,
   0x3b]

/-- Counterexample to C2 as stated: in `c2input` a pending graphic
control record is followed by a comment extension and then the image
descriptor. The claim says the record is preserved across the comment
and attached to the frame; instead the parse succeeds with the sole
frame's graphic control equal to `none` — the pending record was
discarded when the comment's dispatch returned
`DetermineNextBlock(None)` (decoder.rs:411). -/
theorem pending_gc_dropped_across_comment_cex :
    (parseBytes c2input).map (fun d => d.graphic_blocks.map fun gb => gb.extension) =
      .ok [none] := by
  rfl

/-- The stream of `c6input`: a well-formed single-image file whose LZW
minimum-code-size byte is 0, outside the claim's valid range 1..=8. -/
def c6input : List Nat :=
  [0x47, 0x49, 0x46, 0x38, 0x39, 0x61,
   1, 0, 1, 0, 0, 0, 0,
   0x2c, 0, 0, 0, 0, 1, 0, 1, 0, 0,
   0, 1, 0x00, 0,
   0x3b]

/-- Counterexample to C6 as stated: the image data of `c6input` carries
the LZW minimum-code-size byte 0, which is not in 1..=8; the claim
demands an `InvalidLzwCodeSize` failure with no decompression attempted,
but the parse succeeds and the frame holds decompressed indices (no such
error variant exists; decoder.rs:342 passes the byte straight to
`lzw_decode`). -/
theorem lzw_code_size_zero_parses_cex :
    (parseBytes c6input).map
        (fun d => d.graphic_blocks.map fun gb => gb.render_block.image_indexes) =
      .ok [some [0, 0, 0, 0, 0, 0, 0]] := by
  rfl

/-- C6 (amended): the `ProcessImageData` state performs no validation of
the minimum-code-size byte: it can fail only because the stream ends
(`UnexpectedEof` from a read) or because the LZW decoder panics — never
with a code-size error. -/
theorem process_image_data_error_kinds (gb : GraphicBlock) (d : DecoderS)
    (src : List Nat) (e : Err)
    (h : processNextState (.processImageData gb) d src = .error e) :
    e = .unexpectedEof ∨ e = .panic := by
  simp only [processNextState] at h
  split at h
  next e1 heq =>
    injection h with h'
    exact Or.inl (h' ▸ readByte_error_eof src e1 heq)
  next lzwCodeSize s1 heq =>
    split at h
    next e2 heq2 =>
      injection h with h'
      exact Or.inl (h' ▸ readDataSubBlocks_error_eof s1 e2 heq2)
    next dataStream s2 heq2 =>
      split at h
      next =>
        injection h with h'
        exact Or.inr h'.symm
      next => exact absurd h (by simp)

/-- Witness for `process_image_data_error_kinds`: an empty stream makes
the code-size read fail with `UnexpectedEof`. -/
theorem process_image_data_error_kinds_witness :
    Err.unexpectedEof = Err.unexpectedEof ∨ Err.unexpectedEof = Err.panic :=
  process_image_data_error_kinds
    ⟨none, ⟨0, 0, 0, 0, false, false, false, none, none, none⟩⟩
    DecoderS.init [] Err.unexpectedEof (by rfl)

/-- Frame invariant claimed by C10 for every collected graphic block:
decoded indices present; local color table present exactly when the flag
was set; and a present table has the recorded size, which is
`3 * 2 ^ (N + 1)` for the three-bit packed value `N`. -/
def GBInv (gb : GraphicBlock) : Prop :=
  gb.render_block.image_indexes.isSome = true ∧
  (gb.render_block.local_color_table.isSome = true ↔
    gb.render_block.local_color_table_flag = true) ∧
  ∀ t, gb.render_block.local_color_table = some t →
    gb.render_block.local_color_table_size = some t.length ∧
    ∃ N, N < 8 ∧ t.length = 3 * 2 ^ (N + 1)

/-- Like `GBInv` but without the index part, for a block still being assembled. -/
def PendingInv (gb : GraphicBlock) : Prop :=
  (gb.render_block.local_color_table.isSome = true ↔
    gb.render_block.local_color_table_flag = true) ∧
  ∀ t, gb.render_block.local_color_table = some t →
    gb.render_block.local_color_table_size = some t.length ∧
    ∃ N, N < 8 ∧ t.length = 3 * 2 ^ (N + 1)

/-- Invariant of a block entering `ProcessLocalColorTable`: no table yet,
flag set, recorded size well-formed. -/
def LctStateInv (gb : GraphicBlock) : Prop :=
  gb.render_block.local_color_table = none ∧
  gb.render_block.local_color_table_flag = true ∧
  ∃ N, N < 8 ∧ gb.render_block.local_color_table_size = some (3 * 2 ^ (N + 1))

/-- All collected blocks satisfy the frame invariant. -/
def BlocksInv (d : DecoderS) : Prop :=
  ∀ gb ∈ d.graphic_blocks, GBInv gb

/-- Decoder fields established once the header and screen descriptor have
been parsed. -/
def BaseInv (d : DecoderS) : Prop :=
  d.version.isSome = true ∧ d.logical_screen_descriptor.isSome = true ∧ BlocksInv d

/-- The inductive invariant of the parse loop, per state. -/
def StInv : ParserState → DecoderS → Prop
  | .processMagic, d => BlocksInv d
  | .processLogicalScreenDescriptor, d => d.version.isSome = true ∧ BlocksInv d
  | .processLocalColorTable gb, d => BaseInv d ∧ LctStateInv gb
  | .processImageData gb, d => BaseInv d ∧ PendingInv gb
  | _, d => BaseInv d

/-- Successful `process_extension` always dispatches, and touches neither
version, screen descriptor, nor the collected blocks. -/
theorem processExtension_ok_shape (ty : ExtensionType) (d : DecoderS) (src : List Nat)
    (r : ParserState × DecoderS × List Nat) (h : processExtension ty d src = .ok r) :
    (∃ g, r.1 = .determineNextBlock g) ∧
    r.2.1.version = d.version ∧
    r.2.1.logical_screen_descriptor = d.logical_screen_descriptor ∧
    r.2.1.graphic_blocks = d.graphic_blocks := by
  cases ty <;> (simp only [processExtension] at h; repeat' split at h) <;>
    first
      | (injection h; done)
      | (injection h with h'; rw [← h']; exact ⟨⟨_, rfl⟩, rfl, rfl, rfl⟩)

/-- The read `read_bytes` returns exactly the requested number of bytes. -/
theorem readBytes_ok_length (n : Nat) (src buf rest : List Nat)
    (h : readBytes n src = .ok (buf, rest)) : buf.length = n := by
  unfold readBytes readExact at h
  split at h
  · exact absurd h (by simp)
  next hge =>
    injection h with h'
    injection h' with h1 h2
    rw [← h1, List.length_take]
    omega

/-- One successful step of the state machine preserves the loop
invariant. -/
theorem processNextState_inv (st : ParserState) (d : DecoderS) (src : List Nat)
    (r : ParserState × DecoderS × List Nat)
    (h : processNextState st d src = .ok r) (hinv : StInv st d) :
    StInv r.1 r.2.1 := by
  cases st with
  | processMagic =>
    simp only [processNextState] at h
    repeat' split at h
    all_goals first
      | (injection h; done)
      | (injection h with h'; rw [← h']; exact ⟨rfl, hinv⟩)
  | processLogicalScreenDescriptor =>
    simp only [processNextState] at h
    repeat' split at h
    all_goals first
      | (injection h; done)
      | (injection h with h'; rw [← h']; exact ⟨hinv.1, rfl, hinv.2⟩)
  | processGlobalColorTable =>
    simp only [processNextState] at h
    repeat' split at h
    all_goals first
      | (injection h; done)
      | (injection h with h'; rw [← h']; exact ⟨hinv.1, hinv.2.1, hinv.2.2⟩)
  | processTrailer =>
    injection h with h'
    rw [← h']
    exact hinv
  | determineNextBlock g =>
    simp only [processNextState] at h
    repeat' split at h
    all_goals first
      | (injection h; done)
      | (injection h with h'; rw [← h']; exact ⟨hinv.1, hinv.2.1, hinv.2.2⟩)
  | processExtension label =>
    simp only [processNextState] at h
    split at h
    · injection h
    next ty hty =>
      obtain ⟨⟨g, hg⟩, hv, hl, hb⟩ := processExtension_ok_shape ty d src r h
      rw [hg]
      refine ⟨?_, ?_, ?_⟩
      · rw [hv]; exact hinv.1
      · rw [hl]; exact hinv.2.1
      · intro gb hmem
        rw [hb] at hmem
        exact hinv.2.2 gb hmem
  | processImageDescriptor g =>
    simp only [processNextState] at h
    repeat' split at h
    all_goals try (injection h; done)
    all_goals (injection h with h'; rw [← h'])
    · rename_i hflag
      exact ⟨⟨hinv.1, hinv.2.1, hinv.2.2⟩, rfl, decide_eq_true hflag,
        ⟨_, Nat.lt_of_le_of_lt Nat.and_le_right (by omega), rfl⟩⟩
    · rename_i hflag
      refine ⟨⟨hinv.1, hinv.2.1, hinv.2.2⟩, ?_, fun t ht => nomatch ht⟩
      simp [hflag]
  | processLocalColorTable gb =>
    obtain ⟨hbase, htable, hflag, N, hN, hsize⟩ := hinv
    simp only [processNextState] at h
    split at h
    next heq => rw [hsize] at heq; cases heq
    next size heq =>
      split at h
      · injection h
      next table s1 heq2 =>
        have hlen : table.length = size := readBytes_ok_length size src table s1 heq2
        injection h with h'
        rw [← h']
        refine ⟨hbase, ?_, ?_⟩
        · simp [hflag]
        · intro t ht
          injection ht with ht'
          rw [hsize] at heq
          injection heq with heq'
          constructor
          · rw [hsize, ← ht', hlen, ← heq']
          · exact ⟨N, hN, by rw [← ht', hlen, ← heq']⟩
  | processImageData gb =>
    obtain ⟨hbase, hpend⟩ := hinv
    simp only [processNextState] at h
    repeat' split at h
    all_goals try (injection h; done)
    all_goals (injection h with h'; rw [← h'])
    refine ⟨hbase.1, hbase.2.1, ?_⟩
    intro gb0 hmem
    rcases List.mem_append.mp hmem with hm | hm
    · exact hbase.2.2 gb0 hm
    · rw [List.mem_singleton.mp hm]
      exact ⟨rfl, hpend.1, hpend.2⟩
  | done => injection h

/-- The parse loop, started in any state satisfying the invariant,
returns only decoders with version and screen descriptor present and all
collected frames well-formed. -/
theorem parseLoop_inv :
    ∀ fuel st d src d', parseLoop fuel st d src = .ok d' → StInv st d →
      BaseInv d' := by
  intro fuel
  induction fuel with
  | zero =>
    intro st d src d' h _
    exact absurd h (by simp [parseLoop])
  | succ n ih =>
    intro st d src d' h hinv
    rw [parseLoop] at h
    split at h
    · injection h
    next st1 d1 src1 heq =>
      have hstep := processNextState_inv st d src (st1, d1, src1) heq hinv
      split at h
      · injection h with h'
        rw [← h']
        exact hstep
      · exact ih st1 d1 src1 d' h hstep

/-- C10 (confirmed): whenever `parse()` returns success, the decoder's
version and logical screen descriptor are present, and every collected
frame satisfies `GBInv`: its decoded index buffer is present, its local
color table is present exactly when the local-color-table flag was set,
and a present table holds `3 * 2 ^ (N + 1)` bytes for the three-bit
packed value `N` (which the parser records in
`local_color_table_size`). -/
theorem parse_ok_decoder_invariants (input : List Nat) (d : DecoderS)
    (h : parseBytes input = .ok d) :
    d.version.isSome = true ∧ d.logical_screen_descriptor.isSome = true ∧
    ∀ gb ∈ d.graphic_blocks, GBInv gb := by
  have hinit : StInv .processMagic DecoderS.init := by
    intro gb hmem
    exact absurd hmem (List.not_mem_nil gb)
  exact parseLoop_inv (input.length + 2) .processMagic DecoderS.init input d h hinit

/-- A complete single-frame GIF: `GIF89a`, 1×1 screen without global
palette, image descriptor with the local-color-table flag set (packed
`0x80`, so N = 0 and the table holds 6 bytes), a 6-byte local palette,
LZW minimum code size 2 and data `02 44 01 00` (decodes to `[0]`),
trailer. -/
def w10input : List Nat :=
  [0x47, 0x49, 0x46, 0x38, 0x39, 0x61,
   1, 0, 1, 0, 0, 0, 0,
   0x2c, 0, 0, 0, 0, 1, 0, 1, 0, 0x80,
   10, 20, 30, 40, 50, 60,
   2, 2, 0x44, 0x01, 0,
   0x3b]

/-- The decoder value produced by parsing `w10input`. -/
def w10d : DecoderS :=
  { version := some .v89a,
    logical_screen_descriptor := some
      { screen_width := 1, screen_height := 1, global_color_table_flag := false,
        color_resolution := 0, sort_flag := false, global_color_table_size := none,
        background_color_index := 0, pixel_aspect_byte := 0 },
    global_color_table := none,
    special_purpose_extensions := [],
    graphic_blocks := [
      { extension := none,
        render_block :=
          { left_position := 0, top_position := 0, width := 1, height := 1,
            local_color_table_flag := true, interlace_flag := false, sort_flag := false,
            local_color_table_size := some 6,
            local_color_table := some [10, 20, 30, 40, 50, 60],
            image_indexes := some [0] } }],
    loop_count := none }

/-- Witness for `parse_ok_decoder_invariants`: `w10input` parses
successfully to `w10d`, whose sole frame has indices present and a
6-byte local color table matching its set flag. -/
theorem parse_ok_decoder_invariants_witness :
    w10d.version.isSome = true ∧ w10d.logical_screen_descriptor.isSome = true ∧
    ∀ gb ∈ w10d.graphic_blocks, GBInv gb :=
  parse_ok_decoder_invariants w10input w10d (by rfl)
